import Mathlib

set_option maxRecDepth 100000
set_option maxHeartbeats 1600000

/-!
Verification of the TCS3472x color-sensor driver (M5Unit-COLOR).

The development shallowly embeds the driver's pure conversion functions
(`src/utility/unit_color_utility.{hpp,cpp}`, `src/unit/unit_TCS3472x.hpp`)
and its stateful register operations (`src/unit/unit_TCS3472x.cpp`) in Lean.

Modelling conventions:
* `float` arithmetic is idealised as exact rational arithmetic (`ℚ`); the
  claims checked here are robust to the rounding error of single-precision
  floats at the inputs used.
* A C `static_cast<int>(float)` truncates toward zero (`c_trunc`);
  `std::round` rounds to nearest with halves away from zero (`c_round`);
  narrowing an integer to `uint8_t` wraps modulo 256 (`toByte`).
* Device/bus interaction is modelled by an explicit register state plus a
  trace of bus/delay events, so that "no register written" and "no delay
  performed" are statable.
-/

namespace TCS3472x

/-- Rounding as std round does in C: to nearest, halves away from zero. -/
def c_round (q : ℚ) : ℤ :=
  if 0 ≤ q then ⌊q + 1/2⌋ else ⌈q - 1/2⌉

/-- Float-to-integer conversion as a C static cast does: truncation toward zero. -/
def c_trunc (q : ℚ) : ℤ :=
  if 0 ≤ q then ⌊q⌋ else ⌈q⌉

/-- Narrowing integer-to-uint8 conversion, two's-complement wrap modulo 256. -/
def toByte (n : ℤ) : ℕ :=
  (n % 256).toNat

/-- RGBC gain control (enum Gain, unit_TCS3472x.hpp). -/
inductive Gain where
  | Controlx1
  | Controlx4
  | Controlx16
  | Controlx60
deriving DecidableEq, Repr

/-- gain_table of unit_color_utility.cpp: the four fixed gain multipliers. -/
def gain_table : Gain → ℚ
  | .Controlx1 => 1
  | .Controlx4 => 4
  | .Controlx16 => 16
  | .Controlx60 => 60

/-! Timing constants of unit_color_utility.hpp. -/

def AT_NORMAL_MIN : ℚ := 2.4
def AT_NORMAL_MAX : ℚ := 614.4
def WT_NORMAL_FACTOR : ℚ := 2.4
def WT_NORMAL_MIN : ℚ := 2.4
def WT_LONG_FACTOR : ℚ := 28.8
def WT_LONG_MAX : ℚ := 7372.8

/-- atime_to_ms of unit_color_utility.hpp: ATIME raw byte to milliseconds. -/
def atime_to_ms (a : ℕ) : ℚ :=
  2.4 * (256 - (a : ℚ))

/-- wtime_to_ms of unit_color_utility.hpp: WTIME raw byte and WLONG to milliseconds. -/
def wtime_to_ms (w : ℕ) (wlong : Bool) : ℚ :=
  atime_to_ms w * (if wlong then 12 else 1)

/-- ms_to_atime of unit_color_utility.hpp: milliseconds to ATIME raw byte. -/
def ms_to_atime (ms : ℚ) : ℕ :=
  (max (min (256 - c_round (ms / 2.4)) 0xFF) 0x00).toNat

/-- ms_to_wtime of unit_color_utility.cpp: milliseconds to WTIME raw byte and WLONG. -/
def ms_to_wtime (ms : ℚ) : ℕ × Bool :=
  let clamped := max (min ms WT_LONG_MAX) WT_NORMAL_MIN
  let wtime1 := toByte (c_round (256 - clamped / WT_LONG_FACTOR))
  let wtime2 := toByte (c_round (256 - clamped / WT_NORMAL_FACTOR))
  let ms1 := wtime_to_ms wtime1 true
  let ms2 := wtime_to_ms wtime2 false
  if |ms2 - ms| ≤ |ms1 - ms| then (wtime2, false) else (wtime1, true)

/-- calculateCPL of unit_color_utility.cpp; none models the NaN returned when dgf is
not positive. -/
def calculateCPL (atime_ms : ℚ) (gc : Gain) (dgf : ℚ) : Option ℚ :=
  if 0 < dgf then some (atime_ms * gain_table gc / dgf) else none

/-- calculateLux of unit_color_utility.cpp. The C comparison cpl > 0.0f is false when
cpl is NaN (modelled by none), so both the none case and the nonpositive case fall
back to 0. -/
def calculateLux (rawR rawG rawB rawC : ℕ) (atime_ms : ℚ) (gc : Gain)
    (dgf coefR coefG coefB : ℚ) : ℚ :=
  let ir : ℚ := ((rawR : ℚ) + rawG + rawB - rawC) * 0.5
  let rp := (rawR : ℚ) - ir
  let gp := (rawG : ℚ) - ir
  let bp := (rawB : ℚ) - ir
  let g2 := coefR * rp + coefG * gp + coefB * bp
  match calculateCPL atime_ms gc dgf with
  | some cpl => if 0 < cpl then g2 / cpl else 0
  | none => 0

/-- calculateSaturation of unit_color_utility.cpp (argument is the ATIME raw byte). -/
def calculateSaturation (raw : ℕ) : ℕ :=
  let sat := if 256 - raw > 63 then 0xFFFF else 1024 * (256 - raw)
  if 256 - raw ≤ 63 then sat - (sat >>> 2) else sat

/-- Measurement data group (struct Data of unit_TCS3472x.hpp): eight raw bytes,
ClCh/RlRh/GlGh/BlBh. -/
structure Data where
  raw : Fin 8 → ℕ

namespace Data

/-- Raw red value: (raw[3] << 8) | raw[2]. -/
def R16 (d : Data) : ℕ := (d.raw 3 <<< 8) ||| d.raw 2

/-- Raw green value: (raw[5] << 8) | raw[4]. -/
def G16 (d : Data) : ℕ := (d.raw 5 <<< 8) ||| d.raw 4

/-- Raw blue value: (raw[7] << 8) | raw[6]. -/
def B16 (d : Data) : ℕ := (d.raw 7 <<< 8) ||| d.raw 6

/-- Raw clear value: (raw[1] << 8) | raw[0]. -/
def C16 (d : Data) : ℕ := (d.raw 1 <<< 8) ||| d.raw 0

/-- IR component: static_cast<int32_t>((R16 + G16 + B16 - C16) * 0.5f).
The mutable single-assignment cache of the source is a pure-value optimisation
and does not change the computed value. -/
def IR (d : Data) : ℤ :=
  c_trunc ((((d.R16 : ℤ) + d.G16 + d.B16 - d.C16 : ℤ) : ℚ) * 0.5)

/-- raw_to_uint8 of struct Data: max(min(int(c ? (float)v / c * 255 : 0), 0xFF), 0x00). -/
def raw_to_uint8 (v c : ℤ) : ℕ :=
  (max (min (if c ≠ 0 then c_trunc ((v : ℚ) / (c : ℚ) * 255) else 0) 0xFF) 0x00).toNat

/-- Red value 0-255. -/
def R8 (d : Data) : ℕ := raw_to_uint8 (d.R16 : ℤ) (d.C16 : ℤ)

/-- Green value 0-255. -/
def G8 (d : Data) : ℕ := raw_to_uint8 (d.G16 : ℤ) (d.C16 : ℤ)

/-- Blue value 0-255. -/
def B8 (d : Data) : ℕ := raw_to_uint8 (d.B16 : ℤ) (d.C16 : ℤ)

/-- Red value without IR component. -/
def RnoIR8 (d : Data) : ℕ := raw_to_uint8 ((d.R16 : ℤ) - d.IR) ((d.C16 : ℤ) - d.IR)

/-- Green value without IR component. -/
def GnoIR8 (d : Data) : ℕ := raw_to_uint8 ((d.G16 : ℤ) - d.IR) ((d.C16 : ℤ) - d.IR)

/-- Blue value without IR component. -/
def BnoIR8 (d : Data) : ℕ := raw_to_uint8 ((d.B16 : ℤ) - d.IR) ((d.C16 : ℤ) - d.IR)

/-- color565 of struct Data: (r >> 3) << 11 | (g >> 2) << 5 | b >> 3. -/
def color565 (r g b : ℕ) : ℕ :=
  ((r >>> 3) <<< 11) ||| ((g >>> 2) <<< 5) ||| (b >>> 3)

/-- Value in RGB565 format. -/
def RGB565 (d : Data) : ℕ := color565 d.R8 d.G8 d.B8

/-- Value in RGB565 format without IR component. -/
def RGBnoIR565 (d : Data) : ℕ := color565 d.RnoIR8 d.GnoIR8 d.BnoIR8

end Data

/-- The sample whose eight raw bytes are all 0xFF. -/
def dataAllFF : Data := ⟨fun _ => 0xFF⟩

/-! Evaluation lemmas for the rounding primitives: floor/ceil of a rational do not
reduce in the kernel, so concrete values are established through the order
characterisation of floor and ceil. -/

theorem c_trunc_nonneg_eq {q : ℚ} {n : ℤ} (h0 : 0 ≤ q) (h1 : (n : ℚ) ≤ q)
    (h2 : q < n + 1) : c_trunc q = n := by
  rw [c_trunc, if_pos h0]
  exact Int.floor_eq_iff.mpr ⟨h1, by exact_mod_cast h2⟩

theorem c_trunc_neg_eq {q : ℚ} {n : ℤ} (h0 : q < 0) (h1 : (n : ℚ) - 1 < q)
    (h2 : q ≤ n) : c_trunc q = n := by
  rw [c_trunc, if_neg (not_le.mpr h0)]
  exact Int.ceil_eq_iff.mpr ⟨by exact_mod_cast h1, h2⟩

theorem c_round_nonneg_eq {q : ℚ} {n : ℤ} (h0 : 0 ≤ q) (h1 : (n : ℚ) ≤ q + 1/2)
    (h2 : q + 1/2 < n + 1) : c_round q = n := by
  rw [c_round, if_pos h0]
  exact Int.floor_eq_iff.mpr ⟨h1, by exact_mod_cast h2⟩

theorem c_round_neg_eq {q : ℚ} {n : ℤ} (h0 : ¬ 0 ≤ q) (h1 : (n : ℚ) - 1 < q - 1/2)
    (h2 : q - 1/2 ≤ n) : c_round q = n := by
  rw [c_round, if_neg h0]
  exact Int.ceil_eq_iff.mpr ⟨by exact_mod_cast h1, h2⟩

/-- The rounding of c_round is within half a step of its argument. -/
theorem c_round_bound (q : ℚ) : |(c_round q : ℚ) - q| ≤ 1/2 := by
  rw [abs_le, c_round]
  split
  · constructor
    · have := Int.lt_floor_add_one (q + 1/2)
      push_cast at this ⊢
      linarith
    · have := Int.floor_le (q + 1/2)
      push_cast at this ⊢
      linarith
  · constructor
    · have := Int.le_ceil (q - 1/2)
      push_cast at this ⊢
      linarith
    · have := Int.ceil_lt_add_one (q - 1/2)
      push_cast at this ⊢
      linarith

/-- Byte-wrap of an integer already in range is the identity. -/
theorem toByte_cast_nonneg (n : ℤ) (h0 : 0 ≤ n) (h1 : n < 256) :
    ((toByte n : ℕ) : ℤ) = n := by
  rw [toByte]
  omega

/-- Byte-wrap of an integer in [-256, 0) adds one modulus. -/
theorem toByte_cast_neg (n : ℤ) (h0 : -256 ≤ n) (h1 : n < 0) :
    ((toByte n : ℕ) : ℤ) = n + 256 := by
  rw [toByte]
  omega

/-- Byte-wrap always lands in [0, 256). -/
theorem toByte_lt (n : ℤ) : toByte n < 256 := by
  rw [toByte]
  omega

theorem ms_to_wtime_100 : ms_to_wtime 100 = (214, false) := by
  have hl : c_round (256 - max (min (100:ℚ) WT_LONG_MAX) WT_NORMAL_MIN / WT_LONG_FACTOR) = 253 := by
    apply c_round_nonneg_eq <;> norm_num [WT_LONG_MAX, WT_NORMAL_MIN, WT_LONG_FACTOR]
  have hn : c_round (256 - max (min (100:ℚ) WT_LONG_MAX) WT_NORMAL_MIN / WT_NORMAL_FACTOR) = 214 := by
    apply c_round_nonneg_eq <;> norm_num [WT_LONG_MAX, WT_NORMAL_MIN, WT_NORMAL_FACTOR]
  simp only [ms_to_wtime, hl, hn]
  norm_num [toByte, wtime_to_ms, atime_to_ms, show (253:ℤ).toNat = 253 from rfl,
    show (214:ℤ).toNat = 214 from rfl]
  rw [show |(68:ℚ)/5| = 68/5 from abs_of_nonneg (by norm_num),
    show |(4:ℚ)/5| = 4/5 from abs_of_nonneg (by norm_num)]
  norm_num

/-! ## Device and acquisition state machine

The stateful operations of unit_TCS3472x.cpp are embedded as functions from an
explicit register file and unit state to a result, a new state, and a trace of
bus/delay events. The two-wire transport of the excluded collaborator layer is
modelled as always succeeding, except that the success of the 8-byte
measurement-block read is an explicit parameter where a claim depends on it. -/

/-! Register addresses (namespace command of unit_TCS3472x.hpp). -/

def ENABLE_REG : ℕ := 0x00
def ATIME_REG : ℕ := 0x01
def WTIME_REG : ℕ := 0x03
def PERS_REG : ℕ := 0x0C
def CONFIG_REG : ℕ := 0x0D
def CONTROL_REG : ℕ := 0x0F
def STATUS_REG : ℕ := 0x13
def CDATAL_REG : ℕ := 0x14

/-- Bus and timing events performed by an operation, in order. -/
inductive Ev where
  | writeReg (reg val : ℕ)
  | readReg (reg : ℕ)
  | readBlock (reg len : ℕ)
  | delayEv (ms : ℕ)
deriving DecidableEq, Repr

/-- Is the event a blocking delay? -/
def Ev.isDelay : Ev → Bool
  | .delayEv _ => true
  | _ => false

/-- The device register file (byte values). -/
structure DevRegs where
  enable : ℕ
  atime : ℕ
  wtime : ℕ
  config : ℕ
  control : ℕ
  pers : ℕ
  status : ℕ
  cdata : Fin 8 → ℕ

/-- Bit test of struct Enable / Status / Config: value & (1 << k) as a truth value. -/
def testBit8 (v k : ℕ) : Bool := (v &&& (1 <<< k)) != 0

/-- Bit update of struct Enable / Config:
value = (value & ~(1 << k)) | (b << k), on byte-sized values. -/
def setBit8 (v k : ℕ) (b : Bool) : ℕ :=
  (v &&& (0xFF ^^^ (1 <<< k))) ||| ((if b then 1 else 0) <<< k)

/-- PON bit (bit 0) of the ENABLE register. -/
def PON (v : ℕ) : Bool := testBit8 v 0

/-- AVALID bit (bit 0) of the STATUS register. -/
def AVALID (v : ℕ) : Bool := testBit8 v 0

/-- WLONG bit (bit 1) of the CONFIG register. -/
def WLONG (v : ℕ) : Bool := testBit8 v 1

/-- Driver-side acquisition state owned by the component adapter. -/
structure UnitState where
  periodic : Bool
  interval : ℕ
  latest : ℕ
  buffer : List Data
  capacity : ℕ
  updated : Bool

/-- Modelled from the spec: push-with-eviction of the external fixed-capacity FIFO
container (m5::container::CircularBuffer, an excluded collaborator): append the new
sample, displacing the oldest entry when the buffer is full. -/
def pushData (cap : ℕ) (buf : List Data) (d : Data) : List Data :=
  if buf.length < cap then buf ++ [d] else buf.drop 1 ++ [d]

/-- UnitTCS3472x::update of unit_TCS3472x.cpp. readOk is the success of the 8-byte
measurement-block read; now is the millisecond clock value at the call. -/
def update (u : UnitState) (r : DevRegs) (readOk : Bool) (now : ℕ) (force : Bool) :
    UnitState × List Ev :=
  if u.periodic then
    if force || u.latest == 0 || decide (u.latest + u.interval ≤ now) then
      let ready := AVALID r.status
      let evs := if ready then [Ev.readReg STATUS_REG, Ev.readBlock CDATAL_REG 8]
                 else [Ev.readReg STATUS_REG]
      if ready && readOk then
        ({ u with
            updated := true
            latest := now
            buffer := pushData u.capacity u.buffer ⟨r.cdata⟩ }, evs)
      else ({ u with updated := false }, evs)
    else ({ u with updated := false }, [])
  else ({ u with updated := false }, [])

/-- UnitTCS3472x::start_periodic_measurement (no-argument overload). -/
def start_periodic_measurement (u : UnitState) (r : DevRegs) :
    Bool × UnitState × DevRegs × List Ev :=
  if u.periodic then (false, u, r, [])
  else
    let atime := atime_to_ms r.atime
    let wtime := wtime_to_ms r.wtime (WLONG r.config)
    let needWait := !(PON r.enable)
    let e1 := setBit8 (setBit8 (setBit8 r.enable 0 true) 1 true) 3 true
    (true,
     { u with periodic := true, latest := 0, interval := (⌈atime + wtime⌉).toNat },
     { r with enable := e1 },
     [Ev.readReg ATIME_REG, Ev.readReg WTIME_REG, Ev.readReg CONFIG_REG,
      Ev.readReg ENABLE_REG, Ev.writeReg ENABLE_REG e1]
       ++ (if needWait then [Ev.delayEv 3] else []))

/-- The index of a Gain value (m5::stl::to_underlying). -/
def gainIdx : Gain → ℕ
  | .Controlx1 => 0
  | .Controlx4 => 1
  | .Controlx16 => 2
  | .Controlx60 => 3

/-- UnitTCS3472x::writeGain. -/
def writeGain (r : DevRegs) (gc : Gain) : Bool × DevRegs × List Ev :=
  let v := gainIdx gc &&& 0x03
  (true, { r with control := v }, [Ev.writeReg CONTROL_REG v])

/-- A float argument of the driver interface: NaN, an infinity, or a finite value
idealised as a rational. -/
inductive Fl where
  | nan
  | pinf
  | ninf
  | fin (q : ℚ)

/-- UnitTCS3472x::writeAtime(float) of unit_TCS3472x.cpp. The source rejects the
value when !std::isfinite(ms) || ms < AT_NORMAL_MIN || ms > AT_NORMAL_MAX; a NaN or
infinite argument is rejected by the isfinite test before any comparison. -/
def writeAtimeF (r : DevRegs) (ms : Fl) : Bool × DevRegs × List Ev :=
  match ms with
  | .fin q =>
    if q < AT_NORMAL_MIN ∨ q > AT_NORMAL_MAX then (false, r, [])
    else
      let fa := max (min q AT_NORMAL_MAX) AT_NORMAL_MIN
      let v := ms_to_atime fa
      (true, { r with atime := v }, [Ev.writeReg ATIME_REG v])
  | _ => (false, r, [])

/-- UnitTCS3472x::writeWtime(uint8_t, bool): writes WTIME, then CONFIG with a fresh
Config byte holding only the WLONG bit. -/
def writeWtimeRaw (r : DevRegs) (raw : ℕ) (wlong : Bool) : Bool × DevRegs × List Ev :=
  let c := setBit8 0 1 wlong
  (true, { r with wtime := raw, config := c },
   [Ev.writeReg WTIME_REG raw, Ev.writeReg CONFIG_REG c])

/-- UnitTCS3472x::writeWtime(float) of unit_TCS3472x.cpp. -/
def writeWtimeF (r : DevRegs) (ms : Fl) : Bool × DevRegs × List Ev :=
  match ms with
  | .fin q =>
    if q < WT_NORMAL_MIN ∨ q > WT_LONG_MAX then (false, r, [])
    else
      let ft := max (min q WT_LONG_MAX) WT_NORMAL_MIN
      let rw := ms_to_wtime ft
      writeWtimeRaw r rw.1 rw.2
  | _ => (false, r, [])

/-- UnitTCS3472x::start_periodic_measurement(gc, atime, wtime): short-circuit
conjunction of the three writes and the no-argument start. -/
def start_periodic_measurement_with (u : UnitState) (r : DevRegs) (gc : Gain)
    (atime wtime : Fl) : Bool × UnitState × DevRegs × List Ev :=
  if u.periodic then (false, u, r, [])
  else
    let s1 := writeAtimeF r atime
    if s1.1 then
      let s2 := writeWtimeF s1.2.1 wtime
      if s2.1 then
        let s3 := writeGain s2.2.1 gc
        let s4 := start_periodic_measurement u s3.2.1
        (s4.1, s4.2.1, s4.2.2.1, s1.2.2 ++ s2.2.2 ++ s3.2.2 ++ s4.2.2.2)
      else (false, u, s2.2.1, s1.2.2 ++ s2.2.2)
    else (false, u, s1.2.1, s1.2.2)

/-- The data-ready polling loop of UnitTCS3472x::measureSingleshot, as a
fuel-indexed structural recursion. One iteration polls the status register at
time t; on failure it delays 1 ms and repeats while t + 1 <= timeout_at (the
do-while condition of the source). Any fuel of at least timeout_at + 2 - t
makes the fuel case unreachable. -/
def pollLoop (ready : ℕ → Bool) (readOk : Bool) (timeout_at : ℕ) :
    (fuel t : ℕ) → Bool × ℕ × List Ev
  | 0, t => (false, t, [])
  | fuel+1, t =>
    if ready t && readOk then
      (true, t, [Ev.readReg STATUS_REG, Ev.readBlock CDATAL_REG 8])
    else
      let evs := (if ready t then [Ev.readReg STATUS_REG, Ev.readBlock CDATAL_REG 8]
                  else [Ev.readReg STATUS_REG]) ++ [Ev.delayEv 1]
      if t + 1 ≤ timeout_at then
        let rest := pollLoop ready readOk timeout_at fuel (t + 1)
        (rest.1, rest.2.1, evs ++ rest.2.2)
      else (false, t + 1, evs)

/-- UnitTCS3472x::measureSingleshot(Data&) of unit_TCS3472x.cpp. ready gives the
AVALID bit of the status register as a function of the millisecond clock; t0 is
the clock at the call. The returned trace contains every bus access and delay.
The delay before the loop embeds the source expression
delay(at + needWait ? 3 : 0), in which the C conditional operator binds the
whole sum at + needWait as its condition. -/
def measureSingleshot (u : UnitState) (r : DevRegs) (ready : ℕ → Bool) (readOk : Bool)
    (t0 : ℕ) : Bool × DevRegs × List Ev :=
  if u.periodic then (false, r, [])
  else
    let atime := atime_to_ms r.atime
    let needWait := !(PON r.enable)
    let e1 := setBit8 (setBit8 r.enable 0 true) 1 true
    let at_ := (⌈atime⌉).toNat
    let timeout_at := t0 + at_ + 1000
    let warm := if at_ + (if needWait then 1 else 0) ≠ 0 then 3 else 0
    let rest := pollLoop ready readOk timeout_at (at_ + 1002) (t0 + warm)
    (rest.1, { r with enable := e1 },
     [Ev.readReg ATIME_REG, Ev.readReg ENABLE_REG, Ev.writeReg ENABLE_REG e1,
      Ev.delayEv warm] ++ rest.2.2)

/-- UnitTCS3472x::measureSingleshot(Data&, gc, atime): rejected while periodic,
otherwise writeAtime(atime) && writeGain(gc) && measureSingleshot(d). -/
def measureSingleshot_with (u : UnitState) (r : DevRegs) (gc : Gain) (atime : Fl)
    (ready : ℕ → Bool) (readOk : Bool) (t0 : ℕ) : Bool × DevRegs × List Ev :=
  if u.periodic then (false, r, [])
  else
    let s1 := writeAtimeF r atime
    if s1.1 then
      let s2 := writeGain s1.2.1 gc
      let s3 := measureSingleshot u s2.2.1 ready readOk t0
      (s3.1, s3.2.1, s1.2.2 ++ s2.2.2 ++ s3.2.2)
    else (false, s1.2.1, s1.2.2)

/-- UnitTCS3472x::readPersistence: reads PERS and keeps the low 4 bits. -/
def readPersistence (r : DevRegs) : ℕ × List Ev :=
  (r.pers &&& 0x0F, [Ev.readReg PERS_REG])

/-- UnitTCS3472x::writePersistence: read-modify-write keeping the upper nibble. -/
def writePersistence (r : DevRegs) (p : ℕ) : Bool × DevRegs × List Ev :=
  let v := (r.pers &&& 0xF0) ||| (p &&& 0x0F)
  (true, { r with pers := v }, [Ev.readReg PERS_REG, Ev.writeReg PERS_REG v])

/-! ## Spec-side reference definitions

These definitions transcribe the wording of the specification (not the source);
they exist to be compared against the source-side definitions above. -/

/-- The spec wording of the raw-to-8-bit conversion:
clamp(round(value/clear x 255), 0, 255), and 0 when clear == 0. -/
def toByteFraction_round (v c : ℤ) : ℕ :=
  if c = 0 then 0 else (min (max (c_round ((v : ℚ) / (c : ℚ) * 255)) 0) 255).toNat

/-- The raw-to-8-bit conversion with the quotient truncated toward zero instead of
rounded to nearest (the behaviour of the source's static_cast<int>). -/
def toByteFraction_trunc (v c : ℤ) : ℕ :=
  if c = 0 then 0 else (min (max (c_trunc ((v : ℚ) / (c : ℚ) * 255)) 0) 255).toNat

/-- The spec wording of the wait-time encoding selection: clamp into
[2.4, 7372.8], build the long-encoding and normal-encoding candidate bytes by the
rounding formula, reconstruct each candidate's milliseconds, keep the candidate
closer to the requested value, normal encoding on a tie. -/
def msToWaitEncodingSpec (ms : ℚ) : ℕ × Bool :=
  let clamped := max (min ms WT_LONG_MAX) WT_NORMAL_MIN
  let longByte := toByte (c_round (256 - clamped / WT_LONG_FACTOR))
  let normByte := toByte (c_round (256 - clamped / WT_NORMAL_FACTOR))
  let longMs := wtime_to_ms longByte true
  let normMs := wtime_to_ms normByte false
  if |normMs - ms| ≤ |longMs - ms| then (normByte, false) else (longByte, true)

/-- The documented domain of the millisecond overload of writeAtime. -/
def inAtimeDomain : Fl → Prop
  | .fin q => AT_NORMAL_MIN ≤ q ∧ q ≤ AT_NORMAL_MAX
  | _ => False

/-- The documented domain of the millisecond overload of writeWtime. -/
def inWtimeDomain : Fl → Prop
  | .fin q => WT_NORMAL_MIN ≤ q ∧ q ≤ WT_LONG_MAX
  | _ => False

instance : DecidablePred inAtimeDomain := by
  intro ms
  cases ms <;> simp only [inAtimeDomain] <;> infer_instance

instance : DecidablePred inWtimeDomain := by
  intro ms
  cases ms <;> simp only [inWtimeDomain] <;> infer_instance

/-! ## Claim theorems -/

/-- C9: for every ATIME raw byte, with n = 256 - raw, calculateSaturation returns
0xFFFF when n > 63, and otherwise exactly 0.75 x 1024 x n (the two-step integer
reduction threshold -= threshold >> 2 loses nothing because 1024 n is divisible
by 4). -/
theorem saturation_threshold_formula : ∀ raw : Fin 256,
    calculateSaturation raw.val =
      if 256 - raw.val > 63 then 0xFFFF else 3 * (1024 * (256 - raw.val)) / 4 := by
  decide

/-- Witness for C9 at raw = 200 (analog regime, n = 56). -/
theorem saturation_threshold_formula_witness :
    calculateSaturation 200 = 3 * (1024 * 56) / 4 := by
  have h := saturation_threshold_formula 200
  simpa using h

/-- C10: a successful writePersistence stores a byte whose low 4 bits are the
requested persistence value and whose upper 4 bits are the prior register's upper
nibble; readPersistence keeps only the low 4 bits, so the round trip returns the
written persistence value. -/
theorem persistence_roundtrip (r : DevRegs) (v : Fin 256) (p : Fin 16)
    (hv : r.pers = v.val) :
    ((writePersistence r p.val).2.1.pers &&& 0x0F = p.val) ∧
    ((writePersistence r p.val).2.1.pers >>> 4 = r.pers >>> 4) ∧
    ((readPersistence (writePersistence r p.val).2.1).1 = p.val) := by
  simp only [writePersistence, readPersistence, hv]
  clear hv r
  revert v p
  decide

/-- Witness for C10 at pers = 0x5A, p = 12. -/
theorem persistence_roundtrip_witness :
    (⟨0, 0, 0, 0, 0, 0x5A, 0, fun _ => 0⟩ : DevRegs).pers = (0x5A : Fin 256).val ∧
    ((writePersistence ⟨0, 0, 0, 0, 0, 0x5A, 0, fun _ => 0⟩ 12).2.1.pers &&& 0x0F = 12 ∧
     (writePersistence ⟨0, 0, 0, 0, 0, 0x5A, 0, fun _ => 0⟩ 12).2.1.pers >>> 4 =
       (⟨0, 0, 0, 0, 0, 0x5A, 0, fun _ => 0⟩ : DevRegs).pers >>> 4 ∧
     (readPersistence (writePersistence ⟨0, 0, 0, 0, 0, 0x5A, 0, fun _ => 0⟩ 12).2.1).1 = 12) :=
  ⟨rfl, persistence_roundtrip _ (0x5A : Fin 256) (12 : Fin 16) rfl⟩

/-- C3 counterexample: at v = 1, c = 2 the source conversion truncates 127.5 down
to 127, while the claimed round-to-nearest form gives 128. -/
theorem raw_to_uint8_not_rounded :
    Data.raw_to_uint8 1 2 = 127 ∧ toByteFraction_round 1 2 = 128 ∧
      Data.raw_to_uint8 1 2 ≠ toByteFraction_round 1 2 := by
  have ht : Data.raw_to_uint8 1 2 = 127 := by
    rw [Data.raw_to_uint8, if_pos (by norm_num),
      c_trunc_nonneg_eq (n := 127) (by norm_num) (by norm_num) (by norm_num)]
    decide
  have hr : toByteFraction_round 1 2 = 128 := by
    rw [toByteFraction_round, if_neg (by norm_num),
      c_round_nonneg_eq (n := 128) (by norm_num) (by norm_num) (by norm_num)]
    decide
  exact ⟨ht, hr, by rw [ht, hr]; decide⟩

/-- C3 amended: raw_to_uint8 returns 0 when c = 0 and otherwise
clamp(trunc(v / c x 255), 0, 255), the quotient truncated toward zero (not
rounded to nearest) before clamping into [0, 255]. -/
theorem raw_to_uint8_trunc_clamp : ∀ v c : ℤ,
    Data.raw_to_uint8 v c = toByteFraction_trunc v c := by
  intro v c
  rcases eq_or_ne c 0 with h | h
  · simp [Data.raw_to_uint8, toByteFraction_trunc, h]
  · simp only [Data.raw_to_uint8, toByteFraction_trunc, if_neg h, if_pos h]
    generalize c_trunc ((v : ℚ) / (c : ℚ) * 255) = x
    omega

/-- Witness for C3 amended at v = 1, c = 2. -/
theorem raw_to_uint8_trunc_clamp_witness :
    Data.raw_to_uint8 1 2 = toByteFraction_trunc 1 2 :=
  raw_to_uint8_trunc_clamp 1 2

/-! Evaluation of the all-0xFF sample (shared by the C2 theorems). -/

theorem dataAllFF_IR_eq : dataAllFF.IR = 65535 := by
  simp only [Data.IR, show dataAllFF.R16 = 65535 from rfl, show dataAllFF.G16 = 65535 from rfl,
    show dataAllFF.B16 = 65535 from rfl, show dataAllFF.C16 = 65535 from rfl]
  apply c_trunc_nonneg_eq <;> norm_num

theorem raw_to_uint8_full_eq : Data.raw_to_uint8 65535 65535 = 255 := by
  rw [Data.raw_to_uint8, if_pos (by norm_num),
    c_trunc_nonneg_eq (n := 255) (by norm_num) (by norm_num) (by norm_num)]
  decide

theorem dataAllFF_R8_eq : dataAllFF.R8 = 255 := by
  simpa only [Data.R8, show dataAllFF.R16 = 65535 from rfl,
    show dataAllFF.C16 = 65535 from rfl] using raw_to_uint8_full_eq

theorem dataAllFF_G8_eq : dataAllFF.G8 = 255 := by
  simpa only [Data.G8, show dataAllFF.G16 = 65535 from rfl,
    show dataAllFF.C16 = 65535 from rfl] using raw_to_uint8_full_eq

theorem dataAllFF_B8_eq : dataAllFF.B8 = 255 := by
  simpa only [Data.B8, show dataAllFF.B16 = 65535 from rfl,
    show dataAllFF.C16 = 65535 from rfl] using raw_to_uint8_full_eq

theorem dataAllFF_RnoIR8_eq : dataAllFF.RnoIR8 = 0 := by
  simp only [Data.RnoIR8, dataAllFF_IR_eq, show dataAllFF.R16 = 65535 from rfl,
    show dataAllFF.C16 = 65535 from rfl]
  norm_num
  decide

theorem dataAllFF_GnoIR8_eq : dataAllFF.GnoIR8 = 0 := by
  simp only [Data.GnoIR8, dataAllFF_IR_eq, show dataAllFF.G16 = 65535 from rfl,
    show dataAllFF.C16 = 65535 from rfl]
  norm_num
  decide

theorem dataAllFF_BnoIR8_eq : dataAllFF.BnoIR8 = 0 := by
  simp only [Data.BnoIR8, dataAllFF_IR_eq, show dataAllFF.B16 = 65535 from rfl,
    show dataAllFF.C16 = 65535 from rfl]
  norm_num
  decide

/-- C2 counterexample: on the all-0xFF sample the IR component is 65535, not the
claimed 32767 (the repository's own unit test asserts ((0xFFFF * 3) - 0xFFFF) / 2 =
65535), so the claimed conjunction is false. -/
theorem dataAllFF_claim_false :
    ¬ (dataAllFF.R16 = 0xFFFF ∧ dataAllFF.G16 = 0xFFFF ∧ dataAllFF.B16 = 0xFFFF ∧
       dataAllFF.C16 = 0xFFFF ∧ dataAllFF.IR = 32767 ∧ dataAllFF.R8 = 255 ∧
       dataAllFF.G8 = 255 ∧ dataAllFF.B8 = 255 ∧ dataAllFF.RGB565 = 0xFFFF ∧
       dataAllFF.RGBnoIR565 = 0) := by
  intro h
  have := h.2.2.2.2.1
  rw [dataAllFF_IR_eq] at this
  exact absurd this (by decide)

/-- C2 amended: on the all-0xFF sample every claimed value holds except the IR
component, which is 65535 (= (0xFFFF x 3 - 0xFFFF) / 2) rather than 32767. -/
theorem dataAllFF_values :
    dataAllFF.R16 = 0xFFFF ∧ dataAllFF.G16 = 0xFFFF ∧ dataAllFF.B16 = 0xFFFF ∧
    dataAllFF.C16 = 0xFFFF ∧ dataAllFF.IR = 65535 ∧ dataAllFF.R8 = 255 ∧
    dataAllFF.G8 = 255 ∧ dataAllFF.B8 = 255 ∧ dataAllFF.RGB565 = 0xFFFF ∧
    dataAllFF.RGBnoIR565 = 0 := by
  refine ⟨rfl, rfl, rfl, rfl, dataAllFF_IR_eq, dataAllFF_R8_eq, dataAllFF_G8_eq,
    dataAllFF_B8_eq, ?_, ?_⟩
  · rw [Data.RGB565, dataAllFF_R8_eq, dataAllFF_G8_eq, dataAllFF_B8_eq]
    decide
  · rw [Data.RGBnoIR565, dataAllFF_RnoIR8_eq, dataAllFF_GnoIR8_eq, dataAllFF_BnoIR8_eq]
    decide

/-- C1 counterexample: with raw quadruple (0, 2, 0, 0), atime 1 ms, gain x1,
dgf = 1 and coefficients (1, 0, 0), CPL = 1 > 0 and the weighted sum is -1, so
calculateLux returns -1: the result of the source is not floored at 0. -/
theorem lux_negative_at_input :
    calculateLux 0 2 0 0 1 Gain.Controlx1 1 1 0 0 = -1 ∧ ((-1 : ℚ) < 0) := by
  constructor
  · norm_num [calculateLux, calculateCPL, gain_table]
  · norm_num

/-- C1 amended: calculateLux returns 0 whenever CPL is NaN (dgf nonpositive, so
calculateCPL returns none) or nonpositive, and otherwise returns the IR-corrected
weighted sum divided by CPL with no lower clamp (the result may be negative). -/
theorem lux_formula_amended (R G B C : ℕ) (atime : ℚ) (gc : Gain) (dgf cr cg cb : ℚ) :
    (dgf ≤ 0 → calculateCPL atime gc dgf = none ∧
      calculateLux R G B C atime gc dgf cr cg cb = 0) ∧
    (∀ cpl, calculateCPL atime gc dgf = some cpl → cpl ≤ 0 →
      calculateLux R G B C atime gc dgf cr cg cb = 0) ∧
    (∀ cpl, calculateCPL atime gc dgf = some cpl → 0 < cpl →
      calculateLux R G B C atime gc dgf cr cg cb =
        (cr * ((R : ℚ) - ((R : ℚ) + G + B - C) * 0.5) +
         cg * ((G : ℚ) - ((R : ℚ) + G + B - C) * 0.5) +
         cb * ((B : ℚ) - ((R : ℚ) + G + B - C) * 0.5)) / cpl) := by
  refine ⟨?_, ?_, ?_⟩
  · intro hdgf
    have hnone : calculateCPL atime gc dgf = none := by
      simp [calculateCPL, not_lt.mpr hdgf]
    exact ⟨hnone, by simp [calculateLux, hnone]⟩
  · intro cpl hsome hle
    simp [calculateLux, hsome, not_lt.mpr hle]
  · intro cpl hsome hpos
    simp [calculateLux, hsome, hpos]

/-- Witness for C1 amended at (1, 2, 3, 4), atime 2 ms, gain x4, dgf 1, all
coefficients 1: CPL = 8 and the lux value is 3/8. -/
theorem lux_formula_amended_witness :
    calculateCPL 2 Gain.Controlx4 1 = some 8 ∧ (0 : ℚ) < 8 ∧
    calculateLux 1 2 3 4 2 Gain.Controlx4 1 1 1 1 = 3 / 8 := by
  have hcpl : calculateCPL 2 Gain.Controlx4 1 = some 8 := by
    norm_num [calculateCPL, gain_table]
  refine ⟨hcpl, by norm_num, ?_⟩
  have h := (lux_formula_amended 1 2 3 4 2 Gain.Controlx4 1 1 1 1).2.2 8 hcpl (by norm_num)
  rw [h]
  norm_num

/-- C7: while periodic measurement is active, both start_periodic_measurement
overloads and both measureSingleshot overloads return failure with no device
access (empty event trace) and leave the unit state and registers unchanged. -/
theorem periodic_guards (u : UnitState) (r : DevRegs) (gc : Gain) (a w : Fl)
    (ready : ℕ → Bool) (readOk : Bool) (t0 : ℕ) (h : u.periodic = true) :
    start_periodic_measurement u r = (false, u, r, []) ∧
    start_periodic_measurement_with u r gc a w = (false, u, r, []) ∧
    measureSingleshot u r ready readOk t0 = (false, r, []) ∧
    measureSingleshot_with u r gc a ready readOk t0 = (false, r, []) := by
  refine ⟨?_, ?_, ?_, ?_⟩ <;>
    simp [start_periodic_measurement, start_periodic_measurement_with,
      measureSingleshot, measureSingleshot_with, h]

/-- Witness for C7 with a periodic unit state. -/
theorem periodic_guards_witness :
    (⟨true, 10, 0, [], 4, false⟩ : UnitState).periodic = true ∧
    start_periodic_measurement ⟨true, 10, 0, [], 4, false⟩ ⟨0, 0, 0, 0, 0, 0, 0, fun _ => 0⟩ =
      (false, ⟨true, 10, 0, [], 4, false⟩, ⟨0, 0, 0, 0, 0, 0, 0, fun _ => 0⟩, []) ∧
    measureSingleshot ⟨true, 10, 0, [], 4, false⟩ ⟨0, 0, 0, 0, 0, 0, 0, fun _ => 0⟩
      (fun _ => true) true 0 = (false, ⟨0, 0, 0, 0, 0, 0, 0, fun _ => 0⟩, []) :=
  have h := periodic_guards ⟨true, 10, 0, [], 4, false⟩ ⟨0, 0, 0, 0, 0, 0, 0, fun _ => 0⟩
    Gain.Controlx1 Fl.nan Fl.nan (fun _ => true) true 0 rfl
  ⟨rfl, h.1, h.2.2.1⟩

/-- C8: update is a no-op (trace empty, state unchanged apart from updated being
reset to false) when the unit is not periodic or the poll is not due; when a poll
is due, updated is true, exactly one sample is pushed (with oldest-first eviction)
and the last-sample time is set to the poll time, if and only if the data-ready
bit is set and the measurement-block read succeeds; update never emits a delay. -/
theorem update_poll_behaviour (u : UnitState) (r : DevRegs) (readOk : Bool) (now : ℕ)
    (force : Bool) :
    ((u.periodic = false ∨ (force = false ∧ u.latest ≠ 0 ∧ now < u.latest + u.interval)) →
      update u r readOk now force = ({ u with updated := false }, [])) ∧
    (u.periodic = true → (force = true ∨ u.latest = 0 ∨ u.latest + u.interval ≤ now) →
      ((update u r readOk now force).1.updated = true ↔
        (AVALID r.status = true ∧ readOk = true)) ∧
      ((update u r readOk now force).1.updated = true →
        (update u r readOk now force).1 =
          { u with
              updated := true
              latest := now
              buffer := pushData u.capacity u.buffer ⟨r.cdata⟩ }) ∧
      ((update u r readOk now force).1.updated = false →
        (update u r readOk now force).1 = { u with updated := false })) ∧
    (∀ e ∈ (update u r readOk now force).2, e.isDelay = false) := by
  refine ⟨?_, ?_, ?_⟩
  · rintro (hp | ⟨hf, hl, hn⟩)
    · simp [update, hp]
    · cases hp : u.periodic
      · simp [update, hp]
      · simp [update, hp, hf, hl, Nat.not_le.mpr hn]
  · intro hp hdue
    have hcond : (force || u.latest == 0 || decide (u.latest + u.interval ≤ now)) = true := by
      rcases hdue with h | h | h <;> simp [h]
    cases hav : AVALID r.status <;> cases hok : readOk <;>
      simp [update, hp, hcond, hav, hok]
  · cases hp : u.periodic
    · simp [update, hp, Ev.isDelay]
    · by_cases hcond : (force || u.latest == 0 || decide (u.latest + u.interval ≤ now)) = true
      · cases hav : AVALID r.status <;> cases hok : readOk <;>
          simp [update, hp, hcond, hav, hok, Ev.isDelay]
      · simp [update, hp, Bool.eq_false_iff.mpr hcond, Ev.isDelay]

/-- Witness for C8: a due poll (force) with data ready and a successful read on a
periodic unit pushes the sample and reports updated. -/
theorem update_poll_behaviour_witness :
    ((⟨true, 10, 0, [], 4, false⟩ : UnitState).periodic = true) ∧
    ((update ⟨true, 10, 0, [], 4, false⟩ ⟨0, 0, 0, 0, 0, 0, 1, fun _ => 7⟩ true 5 true).1.updated
        = true ↔ (AVALID 1 = true ∧ true = true)) :=
  have h := (update_poll_behaviour ⟨true, 10, 0, [], 4, false⟩ ⟨0, 0, 0, 0, 0, 0, 1, fun _ => 7⟩
    true 5 true).2.1 rfl (Or.inl rfl)
  ⟨rfl, h.1⟩

/-- C6: the millisecond overloads writeAtime(float) and writeWtime(float) reject a
non-finite or out-of-domain value with no register write (registers unchanged,
empty trace), and attempt the register write(s) for every in-domain finite value. -/
theorem write_ms_domain_guard (r : DevRegs) (ms : Fl) :
    (¬ inAtimeDomain ms → writeAtimeF r ms = (false, r, [])) ∧
    (inAtimeDomain ms → ∃ v, writeAtimeF r ms =
      (true, { r with atime := v }, [Ev.writeReg ATIME_REG v])) ∧
    (¬ inWtimeDomain ms → writeWtimeF r ms = (false, r, [])) ∧
    (inWtimeDomain ms → ∃ w c, writeWtimeF r ms =
      (true, { r with wtime := w, config := c },
       [Ev.writeReg WTIME_REG w, Ev.writeReg CONFIG_REG c])) := by
  cases ms with
  | nan =>
    exact ⟨fun _ => rfl, fun h => absurd h (by simp [inAtimeDomain]),
      fun _ => rfl, fun h => absurd h (by simp [inWtimeDomain])⟩
  | pinf =>
    exact ⟨fun _ => rfl, fun h => absurd h (by simp [inAtimeDomain]),
      fun _ => rfl, fun h => absurd h (by simp [inWtimeDomain])⟩
  | ninf =>
    exact ⟨fun _ => rfl, fun h => absurd h (by simp [inAtimeDomain]),
      fun _ => rfl, fun h => absurd h (by simp [inWtimeDomain])⟩
  | fin q =>
    refine ⟨?_, ?_, ?_, ?_⟩
    · intro hd
      simp only [inAtimeDomain, not_and_or, not_le] at hd
      rw [writeAtimeF, if_pos (by tauto)]
    · intro hd
      simp only [inAtimeDomain] at hd
      rw [writeAtimeF, if_neg (by push_neg; exact ⟨hd.1, hd.2⟩)]
      exact ⟨_, rfl⟩
    · intro hd
      simp only [inWtimeDomain, not_and_or, not_le] at hd
      rw [writeWtimeF, if_pos (by tauto)]
    · intro hd
      simp only [inWtimeDomain] at hd
      rw [writeWtimeF, if_neg (by push_neg; exact ⟨hd.1, hd.2⟩)]
      exact ⟨_, _, rfl⟩

/-- Witness for C6: NaN is rejected with registers untouched, and 100 ms (in
domain for both overloads) is accepted. -/
theorem write_ms_domain_guard_witness :
    (¬ inAtimeDomain Fl.nan) ∧
    writeAtimeF ⟨0, 0, 0, 0, 0, 0, 0, fun _ => 0⟩ Fl.nan =
      (false, ⟨0, 0, 0, 0, 0, 0, 0, fun _ => 0⟩, []) ∧
    writeWtimeF ⟨0, 0, 0, 0, 0, 0, 0, fun _ => 0⟩ Fl.nan =
      (false, ⟨0, 0, 0, 0, 0, 0, 0, fun _ => 0⟩, []) ∧
    inAtimeDomain (Fl.fin 100) ∧
    (∃ v, writeAtimeF ⟨0, 0, 0, 0, 0, 0, 0, fun _ => 0⟩ (Fl.fin 100) =
      (true, { (⟨0, 0, 0, 0, 0, 0, 0, fun _ => 0⟩ : DevRegs) with atime := v },
       [Ev.writeReg ATIME_REG v])) :=
  have h1 := write_ms_domain_guard ⟨0, 0, 0, 0, 0, 0, 0, fun _ => 0⟩ Fl.nan
  have h2 := write_ms_domain_guard ⟨0, 0, 0, 0, 0, 0, 0, fun _ => 0⟩ (Fl.fin 100)
  have hnan : ¬ inAtimeDomain Fl.nan := by simp [inAtimeDomain]
  have hdom : inAtimeDomain (Fl.fin 100) := by
    constructor <;> norm_num [AT_NORMAL_MIN, AT_NORMAL_MAX]
  ⟨hnan, h1.1 hnan, h1.2.2.1 (by simp [inWtimeDomain]), hdom, h2.2.1 hdom⟩

/-- A unit state that is not in periodic measurement. -/
def idleUnit : UnitState := ⟨false, 0, 0, [], 1, false⟩

/-- A register file whose ENABLE register already has PON set (device powered on)
and whose ATIME register is 0xFF (2.4 ms integration). -/
def poweredRegs : DevRegs := ⟨1, 255, 0, 0, 0, 0, 1, fun _ => 0⟩

/-- Exit of the polling loop on a successful first poll. -/
theorem pollLoop_hit (ready : ℕ → Bool) (readOk : Bool) (timeout_at fuel t : ℕ)
    (h : (ready t && readOk) = true) :
    pollLoop ready readOk timeout_at (fuel + 1) t =
      (true, t, [Ev.readReg STATUS_REG, Ev.readBlock CDATAL_REG 8]) := by
  simp only [pollLoop]
  rw [if_pos h]

/-- C4 (code bug evidence): with the device already powered on (PON set before the
call) and ATIME = 0xFF, the single-shot trace still contains a 3 ms delay between
the enable write and the first poll. The source expression
delay(at + needWait ? 3 : 0) parses as delay((at + needWait) ? 3 : 0), so the
3 ms warm-up runs unconditionally (at = ceil(2.4) = 3 is never zero) and the
comment's intended wait during ATIME never happens. -/
theorem singleshot_warmup_unconditional :
    PON poweredRegs.enable = true ∧
    (measureSingleshot idleUnit poweredRegs (fun _ => true) true 0).2.2 =
      [Ev.readReg ATIME_REG, Ev.readReg ENABLE_REG, Ev.writeReg ENABLE_REG 3,
       Ev.delayEv 3, Ev.readReg STATUS_REG, Ev.readBlock CDATAL_REG 8] := by
  have hc : ⌈atime_to_ms 255⌉ = (3 : ℤ) := by
    rw [atime_to_ms]
    rw [Int.ceil_eq_iff]
    norm_num
  refine ⟨by decide, ?_⟩
  have hPON : (!(PON (1 : ℕ))) = false := by decide
  have hset : setBit8 (setBit8 1 0 true) 1 true = 3 := by decide
  simp only [measureSingleshot, idleUnit, poweredRegs, hc, hPON, hset]
  rw [show ((3 : ℤ).toNat + 1002) = 1004 + 1 from rfl,
    pollLoop_hit (fun _ => true) true (0 + (3:ℤ).toNat + 1000) 1004 _ rfl]
  norm_num

/-- Unfolding of wtime_to_ms in the normal encoding. -/
theorem wtime_to_ms_false (w : ℕ) : wtime_to_ms w false = 2.4 * (256 - (w : ℚ)) := by
  simp [wtime_to_ms, atime_to_ms]

/-- Unfolding of wtime_to_ms in the long encoding. -/
theorem wtime_to_ms_true (w : ℕ) : wtime_to_ms w true = 2.4 * (256 - (w : ℚ)) * 12 := by
  simp [wtime_to_ms, atime_to_ms]

/-- C5: ms_to_wtime agrees with the spec-worded closest-fit selection between the
long and normal wait-time encodings (clamp, round both candidates, reconstruct,
pick the closer, normal on a tie), and for every requested value in
[2.4, 7372.8] the reconstructed milliseconds of the selected encoding is within
one factor-step (2.4 ms normal, 28.8 ms long) of the request. -/
theorem ms_to_wtime_closest_fit (ms : ℚ) :
    ms_to_wtime ms = msToWaitEncodingSpec ms ∧
    (WT_NORMAL_MIN ≤ ms → ms ≤ WT_LONG_MAX →
      ∀ b l, ms_to_wtime ms = (b, l) →
        |wtime_to_ms b l - ms| ≤ if l then WT_LONG_FACTOR else WT_NORMAL_FACTOR) := by
  refine ⟨rfl, ?_⟩
  intro h1 h2 b l heq
  simp only [WT_NORMAL_MIN, WT_LONG_MAX] at h1 h2
  simp only [ms_to_wtime, WT_NORMAL_MIN, WT_LONG_MAX, WT_LONG_FACTOR, WT_NORMAL_FACTOR,
    min_eq_left h2, max_eq_left h1] at heq
  have hb1 := abs_le.mp (c_round_bound (256 - ms / 28.8))
  have hb2 := abs_le.mp (c_round_bound (256 - ms / 2.4))
  have hE1 : ms = 28.8 * (ms / 28.8) := by ring
  have hE2 : ms = 2.4 * (ms / 2.4) := by ring
  have d1u : ms / 28.8 ≤ 256 := by
    rw [div_le_iff₀ (by norm_num : (0:ℚ) < 28.8)]
    linarith
  have d1l : 0 < ms / 28.8 := div_pos (by linarith) (by norm_num)
  have hr1_lb : 0 ≤ c_round (256 - ms / 28.8) := by
    have hq : (-1 : ℚ) < (c_round (256 - ms / 28.8) : ℚ) := by linarith [hb1.1]
    have hz : (-1 : ℤ) < c_round (256 - ms / 28.8) := by exact_mod_cast hq
    omega
  have hr1_ub : c_round (256 - ms / 28.8) ≤ 256 := by
    have hq : (c_round (256 - ms / 28.8) : ℚ) < 257 := by linarith [hb1.2]
    have hz : c_round (256 - ms / 28.8) < (257 : ℤ) := by exact_mod_cast hq
    omega
  rcases le_or_lt ms 614.4 with hms | hms
  · -- the normal candidate is exactly representable and within 1.2 ms
    have d2u : ms / 2.4 ≤ 256 := by
      rw [div_le_iff₀ (by norm_num : (0:ℚ) < 2.4)]
      linarith
    have d2l : 1 ≤ ms / 2.4 := by
      rw [le_div_iff₀ (by norm_num : (0:ℚ) < 2.4)]
      linarith
    have hr2_lb : 0 ≤ c_round (256 - ms / 2.4) := by
      have hq : (-1 : ℚ) < (c_round (256 - ms / 2.4) : ℚ) := by linarith [hb2.1]
      have hz : (-1 : ℤ) < c_round (256 - ms / 2.4) := by exact_mod_cast hq
      omega
    have hr2_ub : c_round (256 - ms / 2.4) < 256 := by
      have hq : (c_round (256 - ms / 2.4) : ℚ) < 256 := by linarith [hb2.2]
      exact_mod_cast hq
    have hcast2 : ((toByte (c_round (256 - ms / 2.4)) : ℕ) : ℚ) =
        (c_round (256 - ms / 2.4) : ℚ) := by
      exact_mod_cast toByte_cast_nonneg _ hr2_lb hr2_ub
    have hms2 : |wtime_to_ms (toByte (c_round (256 - ms / 2.4))) false - ms| ≤ 1.2 := by
      rw [wtime_to_ms_false, hcast2, abs_le]
      constructor <;> linarith [hb2.1, hb2.2, hE2]
    by_cases hsel : |wtime_to_ms (toByte (c_round (256 - ms / 2.4))) false - ms| ≤
        |wtime_to_ms (toByte (c_round (256 - ms / 28.8))) true - ms|
    · rw [if_pos hsel] at heq
      injection heq with hbv hlv
      subst hbv
      subst hlv
      show |wtime_to_ms (toByte (c_round (256 - ms / 2.4))) false - ms| ≤ 2.4
      linarith [hms2]
    · rw [if_neg hsel] at heq
      injection heq with hbv hlv
      subst hbv
      subst hlv
      show |wtime_to_ms (toByte (c_round (256 - ms / 28.8))) true - ms| ≤ 28.8
      have hlt := not_le.mp hsel
      linarith [hms2]
  · -- requested value above the normal range: the long candidate is in range
    have hr1_ub' : c_round (256 - ms / 28.8) ≤ 255 := by
      have hd : 21 ≤ ms / 28.8 := by
        rw [le_div_iff₀ (by norm_num : (0:ℚ) < 28.8)]
        linarith
      have hq : (c_round (256 - ms / 28.8) : ℚ) < 236 := by linarith [hb1.2]
      have hz : c_round (256 - ms / 28.8) < (236 : ℤ) := by exact_mod_cast hq
      omega
    have hcast1 : ((toByte (c_round (256 - ms / 28.8)) : ℕ) : ℚ) =
        (c_round (256 - ms / 28.8) : ℚ) := by
      exact_mod_cast toByte_cast_nonneg _ hr1_lb (by omega)
    have hms1 : |wtime_to_ms (toByte (c_round (256 - ms / 28.8))) true - ms| ≤ 14.4 := by
      rw [wtime_to_ms_true, hcast1, abs_le]
      constructor <;> linarith [hb1.1, hb1.2, hE1]
    by_cases hsel : |wtime_to_ms (toByte (c_round (256 - ms / 2.4))) false - ms| ≤
        |wtime_to_ms (toByte (c_round (256 - ms / 28.8))) true - ms|
    · rw [if_pos hsel] at heq
      injection heq with hbv hlv
      subst hbv
      subst hlv
      show |wtime_to_ms (toByte (c_round (256 - ms / 2.4))) false - ms| ≤ 2.4
      -- the normal candidate was selected although the request exceeds 614.4 ms:
      -- its rounded value must be 0 (the byte wraps to 614.4 ms), else the
      -- candidate sits below 14.4 ms and could not be the closer one
      have hms2le : |wtime_to_ms (toByte (c_round (256 - ms / 2.4))) false - ms| ≤ 14.4 :=
        le_trans hsel hms1
      have hb2lt : toByte (c_round (256 - ms / 2.4)) < 256 := toByte_lt _
      have habs := abs_le.mp hms2le
      rw [wtime_to_ms_false] at habs
      have hbge : (0 : ℚ) ≤ ((toByte (c_round (256 - ms / 2.4)) : ℕ) : ℚ) :=
        Nat.cast_nonneg _
      have hmsub : ms ≤ 628.8 := by linarith [habs.1]
      have hx2neg : 256 - ms / 2.4 < 0 := by
        have : 256 < ms / 2.4 := by
          rw [lt_div_iff₀ (by norm_num : (0:ℚ) < 2.4)]
          linarith
        linarith
      have hx2ge : (-6 : ℚ) ≤ 256 - ms / 2.4 := by
        have : ms / 2.4 ≤ 262 := by
          rw [div_le_iff₀ (by norm_num : (0:ℚ) < 2.4)]
          linarith
        linarith
      have hr2ub : c_round (256 - ms / 2.4) ≤ 0 := by
        have hq : (c_round (256 - ms / 2.4) : ℚ) < 1 := by linarith [hb2.2]
        have hz : c_round (256 - ms / 2.4) < (1 : ℤ) := by exact_mod_cast hq
        omega
      have hr2lb : -6 ≤ c_round (256 - ms / 2.4) := by
        have hq : (-7 : ℚ) < (c_round (256 - ms / 2.4) : ℚ) := by linarith [hb2.1]
        have hz : (-7 : ℤ) < c_round (256 - ms / 2.4) := by exact_mod_cast hq
        omega
      rcases eq_or_lt_of_le hr2ub with hzero | hneg
      · -- rounded value 0: the byte wraps to 0, reconstructing 614.4 ms, and the
        -- request is at most 615.6 ms
        have hcast0 : ((toByte (c_round (256 - ms / 2.4)) : ℕ) : ℚ) = 0 := by
          rw [hzero]
          rw [show toByte 0 = 0 from rfl]
          norm_num
        have hup : ms ≤ 615.6 := by
          have hq : (c_round (256 - ms / 2.4) : ℚ) = 0 := by exact_mod_cast hzero
          have hd : ms / 2.4 ≤ 256.5 := by linarith [hb2.2, hq]
          rw [div_le_iff₀ (by norm_num : (0:ℚ) < 2.4)] at hd
          linarith
        rw [wtime_to_ms_false, hcast0, abs_le]
        constructor <;> linarith
      · -- negative rounded value: the byte wraps high and the candidate sits
        -- below 14.4 ms, contradicting closeness to a request above 614.4 ms
        exfalso
        have hcastn : ((toByte (c_round (256 - ms / 2.4)) : ℕ) : ℚ) =
            (c_round (256 - ms / 2.4) : ℚ) + 256 := by
          exact_mod_cast toByte_cast_neg _ (by omega) hneg
        have hrq : (-6 : ℚ) ≤ (c_round (256 - ms / 2.4) : ℚ) := by exact_mod_cast hr2lb
        rw [hcastn] at habs
        linarith [habs.1]
    · rw [if_neg hsel] at heq
      injection heq with hbv hlv
      subst hbv
      subst hlv
      show |wtime_to_ms (toByte (c_round (256 - ms / 28.8))) true - ms| ≤ 28.8
      linarith [hms1]

/-- Witness for C5 at 100 ms: the selected encoding is the normal byte 214, whose
reconstructed 100.8 ms is within 2.4 ms of the request. -/
theorem ms_to_wtime_closest_fit_witness :
    WT_NORMAL_MIN ≤ (100 : ℚ) ∧ (100 : ℚ) ≤ WT_LONG_MAX ∧
    |wtime_to_ms 214 false - 100| ≤
      (if (false : Bool) then WT_LONG_FACTOR else WT_NORMAL_FACTOR) :=
  ⟨by norm_num [WT_NORMAL_MIN], by norm_num [WT_LONG_MAX],
    (ms_to_wtime_closest_fit 100).2 (by norm_num [WT_NORMAL_MIN])
      (by norm_num [WT_LONG_MAX]) 214 false ms_to_wtime_100⟩

end TCS3472x
